import Mathlib

/-!
Verification of the mytools-gps-suite frontend logic and of the archive /
extraction subsystem described by its documentation.

The embedded functions follow the JavaScript sources:
  * `extract-gpx-parts/web/static/script.js` (upload form validation,
    upload progress simulation, select/process response handling,
    token-gated deletion dialog),
  * the results-page script (file selection set, download-selected gating),
  * `google-gpx-converter/url-expander.js` (short URL expansion).
Parts of the extraction backend that exist only as documentation are
modelled from the specification and are marked as such.
-/

namespace GpxSuite

/-- Kind of a toast notification shown by `showToast` in script.js. -/
inductive ToastKind where
  | success
  | error
  | warning
  | info
deriving DecidableEq, Repr

/-! ## Select/Process response handling (`processFile` in script.js) -/

/-- Truthiness of an optional string field of a JSON response, as JavaScript
evaluates it: absent and empty strings are falsy, every other string truthy. -/
def truthyStr : Option String → Bool
  | none => false
  | some s => s ≠ ""

/-- The JSON body answering a POST to the select-file endpoint, with the
fields `processFile` inspects: `redirect`, `url`, `job_id`, `error`. -/
structure SelectFileResponse where
  redirect : Bool
  url : Option String
  jobId : Option String
  error : Option String

/-- Observable outcome of `processFile` after the response is received:
navigate to the existing-results URL, navigate to the processing page of a
job, or surface an error toast. -/
inductive ProcessOutcome where
  | navigateResults (url : String)
  | navigateProcessing (location : String)
  | showError (message : String)
deriving DecidableEq, Repr

/-- Embedding of the response dispatch inside `processFile` (script.js):
`if (data.redirect && data.url)` navigate to `data.url`; `else if
(data.job_id)` navigate to the processing page; otherwise an error is thrown
and caught, showing a toast with the response error text when present. -/
def processFile (d : SelectFileResponse) : ProcessOutcome :=
  if d.redirect && truthyStr d.url then
    ProcessOutcome.navigateResults (d.url.getD "")
  else if truthyStr d.jobId then
    ProcessOutcome.navigateProcessing ("/processing/" ++ d.jobId.getD "")
  else
    ProcessOutcome.showError
      (if truthyStr d.error then d.error.getD "" else "Failed to start processing")

/-! ## Upload form validation (`setupFileInput` in script.js) -/

/-- Effect of selecting a file in the upload form: whether the input was
reset, the toast that is shown, and whether the file remains in the input
(so the form can be submitted for it). -/
structure FileSelectEffect where
  inputCleared : Bool
  toastKind : ToastKind
  toastMessage : String
deriving DecidableEq, Repr

/-- The check `file.name.toLowerCase().endsWith('.gpx')` from `setupFileInput`
(script.js), on the character sequence of the name. -/
def hasGpxExtension (name : String) : Bool :=
  ".gpx".data.isSuffixOf (name.data.map Char.toLower)

/-- Embedding of the validation in `setupFileInput` (script.js): a file whose
lowercased name does not end in ".gpx" is rejected with an error toast and
the input is reset; otherwise a file larger than 100*1024*1024 bytes is
rejected the same way; otherwise a success toast announces the file ready. -/
def handleFileSelected (name : String) (size : Nat) : FileSelectEffect :=
  if ¬ (hasGpxExtension name) then
    { inputCleared := true, toastKind := ToastKind.error
      toastMessage := "Please select a GPX file" }
  else if size > 100 * 1024 * 1024 then
    { inputCleared := true, toastKind := ToastKind.error
      toastMessage := "File is too large. Maximum size is 100MB" }
  else
    { inputCleared := false, toastKind := ToastKind.success
      toastMessage := "GPX file ready for processing" }

/-- Embedding of the submit guard in `setupFormSubmission` (script.js): the
upload form submits only when a file is present in the input. -/
def uploadSubmits (hasFile : Bool) : Bool := hasFile

/-! ## Deletion dialog (`confirmDelete` in script.js) -/

/-- Whitespace trimming of the token input, `tokenInput.value.trim()`,
on the character sequence of the string. -/
def jsTrim (s : String) : String :=
  String.mk (((s.data.dropWhile Char.isWhitespace).reverse.dropWhile
    Char.isWhitespace).reverse)

/-- What `confirmDelete` does before any network call: warn on an empty
trimmed token, error when no entry is selected for deletion, otherwise send
the delete request for the selected `unique_id` with the trimmed token. -/
inductive DeleteGuardAction where
  | warnEmptyToken
  | errorNoFile
  | sendRequest (uid : String) (token : String)
deriving DecidableEq, Repr

/-- Embedding of the guard clauses of `confirmDelete` (script.js):
`if (!token) ...return`, `if (!uniqueId) ...return`, and only then the
fetch of the delete endpoint. `currentId` is
`window.gpxExtractor.currentDeleteId`, which JavaScript treats as falsy when
it is null or the empty string. -/
def confirmDeleteGuard (tokenInput : String) (currentId : Option String) :
    DeleteGuardAction :=
  let token := jsTrim tokenInput
  if token = "" then
    DeleteGuardAction.warnEmptyToken
  else
    match currentId with
    | none => DeleteGuardAction.errorNoFile
    | some uid =>
      if uid = "" then DeleteGuardAction.errorNoFile
      else DeleteGuardAction.sendRequest uid token

/-- The JSON body answering the delete endpoint, with the fields
`confirmDelete` inspects: `success` and `error`. -/
structure DeleteResponse where
  success : Bool
  error : Option String

/-- Observable result of the delete response handler: the file list shown in
the archive after the handler ran, and the toast it raised. -/
structure DeleteOutcome where
  files : List String
  toastKind : ToastKind
  toastMessage : String
deriving DecidableEq, Repr

/-- Embedding of the response handler of `confirmDelete` (script.js): on
`data.success` the file item of the deleted `unique_id` is removed from the
displayed list and a success toast names the entry; otherwise the list is
left as it was and an error toast shows the response error text when
present. -/
def applyDeleteResponse (files : List String) (uid : String)
    (displayName : String) (resp : DeleteResponse) : DeleteOutcome :=
  if resp.success then
    { files := files.erase uid, toastKind := ToastKind.success
      toastMessage := "Deleted: " ++ displayName }
  else
    { files := files, toastKind := ToastKind.error
      toastMessage :=
        if truthyStr resp.error then resp.error.getD "" else "Failed to delete file" }

/-! ## Upload progress simulation (`simulateProgress` in script.js) -/

/-- The progress-text label shown by `simulateProgress` (script.js) at a
given progress percentage: the code branches at 30, 60 and 90. -/
def progressLabel (p : ℚ) : String :=
  if p < 30 then "Uploading file..."
  else if p < 60 then "Analyzing GPX structure..."
  else if p < 90 then "Extracting components..."
  else "Almost done..."

/-- One tick of `simulateProgress` (script.js): the progress grows by the
random increment and is capped at 90 until real completion. -/
def stepProgress (p r : ℚ) : ℚ :=
  if p + r > 90 then 90 else p + r

/-- The sequence of progress percentages displayed by successive ticks of
`simulateProgress`, starting from `p` and consuming the random increments
`rs` one tick at a time. -/
def runProgress : ℚ → List ℚ → List ℚ
  | _, [] => []
  | p, r :: rs => stepProgress p r :: runProgress (stepProgress p r) rs

/-- The label-per-progress mapping asserted by the specification: phase
boundaries at 10, 40 and 90 (uploading 0–10, parsing 10–40, extracting
40–90, summarizing 90–100), each phase rendered with the corresponding
progress-text message of script.js. Written from the words of the spec so
it can be compared with `progressLabel`, which is embedded from the code. -/
def specClaimedLabel (p : ℚ) : String :=
  if p < 10 then "Uploading file..."
  else if p < 40 then "Analyzing GPX structure..."
  else if p < 90 then "Extracting components..."
  else "Almost done..."

/-! ## Short URL expansion (`url-expander.js` of the converter) -/

/-- The `String.prototype.includes` test of JavaScript on character lists:
`listContains pat l` holds when `pat` occurs contiguously inside `l`. -/
def listContains (pat : List Char) : List Char → Bool
  | [] => pat.isEmpty
  | c :: rest => pat.isPrefixOf (c :: rest) || listContains pat rest

/-- A character the regex dot of JavaScript does not match: the four
line terminators. -/
def isLineTerm (c : Char) : Bool :=
  c = '\n' || c = '\r' || c = Char.ofNat 0x2028 || c = Char.ofNat 0x2029

/-- After one or more non-line-terminator characters, the literal "/maps"
occurs: the tail of the regex `www\.google\..+\/maps`. -/
def dotPlusThenMaps : List Char → Bool
  | [] => false
  | c :: rest => !(isLineTerm c) && ("/maps".data.isPrefixOf rest || dotPlusThenMaps rest)

/-- The regex `/www\.google\..+\/maps/` of `isValidExpandedUrl`
(url-expander.js): some occurrence of "www.google." followed, after at least
one non-line-terminator character, by "/maps". -/
def wwwGoogleMapsRegex : List Char → Bool
  | [] => false
  | c :: rest =>
    ("www.google.".data.isPrefixOf (c :: rest) && dotPlusThenMaps (List.drop 11 (c :: rest)))
      || wwwGoogleMapsRegex rest

/-- Embedding of `URLExpander.isValidExpandedUrl` (url-expander.js): the URL
matches one of the three Google Maps host patterns and contains one of "@",
"q=" or "dir/". -/
def isValidExpandedUrl (url : String) : Bool :=
  (listContains "maps.google.".data url.data
      || wwwGoogleMapsRegex url.data
      || listContains "maps.app.goo.gl".data url.data)
    && (listContains "@".data url.data
      || listContains "q=".data url.data
      || listContains "dir/".data url.data)

/-- Embedding of the method loop of `URLExpander.expandUrl`
(url-expander.js). Each element of `results` is the outcome of one expansion
method in the order the loop tries them: `none` when the method threw,
`some e` when it returned the string `e`. The loop returns the first result
that is truthy, differs from the input and passes `isValidExpandedUrl`;
when no method yields such a URL it throws, which the embedding returns as
`none`. -/
def expandUrl (shortUrl : String) : List (Option String) → Option String
  | [] => none
  | r :: rs =>
    match r with
    | some e =>
      if e ≠ "" ∧ e ≠ shortUrl ∧ isValidExpandedUrl e = true then some e
      else expandUrl shortUrl rs
    | none => expandUrl shortUrl rs

/-! ## Results page selection state (results-page script) -/

/-- A file item of the results page: the extracted file's name and its
content type (waypoints, track or route), as held in the `data-filename`
and `data-type` attributes. -/
structure FileEntry where
  name : String
  fileType : String
deriving DecidableEq, Repr

/-- `Set.prototype.add` of JavaScript on an insertion-ordered list without
duplicates: appends the element unless already present. -/
def setAdd (l : List String) (x : String) : List String :=
  if x ∈ l then l else l ++ [x]

/-- The state the results-page script manipulates: the file items rendered
in the DOM, the `selectedFiles` set, the displayed selected count and the
disabled flag of the Download Selected button. -/
structure ResultsState where
  items : List FileEntry
  selected : List String
  displayedCount : Nat
  downloadDisabled : Bool
deriving Repr

/-- Embedding of `updateSelectedCount` (results-page script): the displayed
count becomes the size of `selectedFiles` and the Download Selected button
is disabled exactly when that size is zero. -/
def updateSelectedCount (s : ResultsState) : ResultsState :=
  { s with displayedCount := s.selected.length,
           downloadDisabled := s.selected.length == 0 }

/-- Embedding of `selectAll` (results-page script): every checkbox filename
is added to `selectedFiles`, then the count display is refreshed. -/
def selectAllOp (s : ResultsState) : ResultsState :=
  updateSelectedCount
    { s with selected := (s.items.map FileEntry.name).foldl setAdd s.selected }

/-- Embedding of `selectNone` (results-page script): `selectedFiles` is
cleared, then the count display is refreshed. -/
def selectNoneOp (s : ResultsState) : ResultsState :=
  updateSelectedCount { s with selected := [] }

/-- Embedding of `selectByType` (results-page script): the selection is
cleared, then the filenames of the items of the given type are added, then
the count display is refreshed. -/
def selectByTypeOp (t : String) (s : ResultsState) : ResultsState :=
  let s1 := selectNoneOp s
  updateSelectedCount
    { s1 with selected :=
        (((s1.items.filter (fun it => it.fileType == t)).map FileEntry.name).foldl
          setAdd s1.selected) }

/-- Embedding of `toggleSelectAll` (results-page script): dispatches on the
state of the select-all checkbox. -/
def toggleSelectAllOp (checked : Bool) (s : ResultsState) : ResultsState :=
  if checked then selectAllOp s else selectNoneOp s

/-- Embedding of the individual checkbox change handler (results-page
script): the filename is added to or removed from `selectedFiles` according
to the checkbox, then the count display is refreshed. -/
def checkboxChangeOp (name : String) (checked : Bool) (s : ResultsState) : ResultsState :=
  updateSelectedCount
    { s with selected := if checked then setAdd s.selected name else s.selected.erase name }

/-- The selection operations of the results page. -/
inductive SelectionOp where
  | selAll
  | selNone
  | selByType (t : String)
  | selToggle (checked : Bool)
  | selChange (name : String) (checked : Bool)
deriving DecidableEq, Repr

/-- Dispatch of one selection operation. -/
def applySelectionOp : SelectionOp → ResultsState → ResultsState
  | SelectionOp.selAll, s => selectAllOp s
  | SelectionOp.selNone, s => selectNoneOp s
  | SelectionOp.selByType t, s => selectByTypeOp t s
  | SelectionOp.selToggle b, s => toggleSelectAllOp b s
  | SelectionOp.selChange n b, s => checkboxChangeOp n b s

/-- A sequence of selection operations applied in order. -/
def applySelectionOps (s : ResultsState) (ops : List SelectionOp) : ResultsState :=
  ops.foldl (fun st op => applySelectionOp op st) s

/-- The display invariant of the results page: the displayed selected count
equals the size of the `selectedFiles` set and the Download Selected button
is disabled exactly when that set is empty. -/
def countInvariant (s : ResultsState) : Prop :=
  s.displayedCount = s.selected.length ∧ (s.downloadDisabled = true ↔ s.selected = [])

/-- Embedding of the request gate of `downloadSelected` (results-page
script): with zero selected files only a warning toast is shown and no
request is issued; otherwise the POST body carries the selected files and
the output directory. -/
def downloadSelectedRequest (selected : List String) (dir : String) :
    Option (List String × String) :=
  if selected.length = 0 then none else some (selected, dir)

/-! ## Archive Store dedup policy (modelled from the specification) -/

/-- Modelled from the spec: the status of an archive entry
(Uploaded, Queued, Processing, Ready, Failed); the Flask backend holding the
archive code is not among the sources. -/
inductive EntryStatus where
  | Uploaded
  | Queued
  | Processing
  | Ready
  | Failed
deriving DecidableEq, Repr

/-- Modelled from the spec: the persisted archive entry record with the
fields the dedup policy reads and writes; `buildDate` is the build date
truncated to day granularity, formatted as a number (YYYYMMDD). -/
structure ArchiveEntry where
  uniqueId : String
  cleanName : String
  buildDate : Nat
  status : EntryStatus
deriving DecidableEq, Repr

/-- Modelled from the spec: the action reported by an upload. -/
inductive UpsertAction where
  | Skipped
  | Created
  | Replaced
deriving DecidableEq, Repr

/-- Modelled from the spec: `unique_id` is the clean name concatenated with
the formatted build date (e.g. `name_YYYYMMDD`). -/
def mkUniqueId (cleanName : String) (buildDate : Nat) : String :=
  cleanName ++ "_" ++ toString buildDate

/-- Modelled from the spec: the in-place reset applied by a Replaced upload
to the entry of the uploaded clean name: new unique id, new build date,
status back to Queued; every other entry is untouched. -/
def replaceEntry (cleanName : String) (buildDate : Nat) (e : ArchiveEntry) :
    ArchiveEntry :=
  if e.cleanName == cleanName then
    { e with uniqueId := mkUniqueId cleanName buildDate,
             buildDate := buildDate,
             status := EntryStatus.Queued }
  else e

/-- Modelled from the spec: the dedup decision of the Archive Store on an
upload. When the clean name already has an entry, an incoming build date at
most the existing one is Skipped with the existing entry untouched; a newer
build date Replaces the entry in place, resetting it to Queued under the new
unique id; with no prior entry a new Queued entry is Created. Returns the
new store, the action and the `unique_id` reported to the caller. -/
def upsert (store : List ArchiveEntry) (cleanName : String) (buildDate : Nat) :
    List ArchiveEntry × UpsertAction × String :=
  match store.find? (fun e => e.cleanName == cleanName) with
  | some e =>
    if buildDate ≤ e.buildDate then
      (store, UpsertAction.Skipped, e.uniqueId)
    else
      (store.map (replaceEntry cleanName buildDate),
        UpsertAction.Replaced, mkUniqueId cleanName buildDate)
  | none =>
    (⟨mkUniqueId cleanName buildDate, cleanName, buildDate, EntryStatus.Queued⟩ :: store,
      UpsertAction.Created, mkUniqueId cleanName buildDate)

/-! ## Extractor output (modelled from the specification) -/

/-- Modelled from the spec: a geographic point of the container document;
`gpx_extractor.py` is not among the sources. -/
structure GeoPoint where
  lat : Int
  lon : Int
  elevation : Option Int
  time : Option String
deriving DecidableEq, Repr

/-- Modelled from the spec: a top-level point marker with its name and
coordinates. -/
structure Marker where
  name : Option String
  point : GeoPoint
deriving DecidableEq, Repr

/-- Modelled from the spec: a track or route, an optionally named ordered
sequence of points. -/
structure TrackSeq where
  name : Option String
  points : List GeoPoint
deriving DecidableEq, Repr

/-- Modelled from the spec: the in-memory container document with its
markers, tracks and routes. -/
structure GeoDocument where
  markers : List Marker
  tracks : List TrackSeq
  routes : List TrackSeq
deriving DecidableEq, Repr

/-- Modelled from the spec: a filesystem-safe character kept by the name
sanitizer. -/
def isSafeChar (c : Char) : Bool :=
  c.isAlphanum || c = '_' || c = '-' || c = '.'

/-- Modelled from the spec: sanitizing of track and route names: whitespace
runs collapse to single underscores and non-filesystem-safe characters are
dropped. The flag records whether the previous character belonged to a
whitespace run. -/
def sanitizeAux : Bool → List Char → List Char
  | _, [] => []
  | prevWs, c :: rest =>
    if c.isWhitespace then
      if prevWs then sanitizeAux true rest
      else '_' :: sanitizeAux true rest
    else if isSafeChar c then c :: sanitizeAux false rest
    else sanitizeAux false rest

/-- Modelled from the spec: the sanitized form of a track or route name. -/
def sanitizeName (s : String) : String :=
  String.mk (sanitizeAux false s.data)

/-- Modelled from the spec: the output filename of a track or route: the
sanitized declared name, or the positional fallback when no name is
present. -/
def componentFileName (kind : String) (idx : Nat) (t : TrackSeq) : String :=
  match t.name with
  | some n => sanitizeName n
  | none => kind ++ "_" ++ toString idx

/-- Modelled from the spec: one output document produced by the Extractor
for a single track or route. -/
structure OutputFile where
  filename : String
  points : List GeoPoint
deriving DecidableEq, Repr

/-- Modelled from the spec: the output file set of the Extractor: one
markers document collecting all top-level markers, one document per track
and one per route, each carrying that component's points. -/
structure ExtractResult where
  markersOut : List Marker
  trackFiles : List OutputFile
  routeFiles : List OutputFile
deriving DecidableEq, Repr

/-- Modelled from the spec: the per-component output documents, one per
track or route in order, numbered positionally from `i`. -/
def extractFiles (kind : String) : Nat → List TrackSeq → List OutputFile
  | _, [] => []
  | i, t :: ts => ⟨componentFileName kind i t, t.points⟩ :: extractFiles kind (i + 1) ts

/-- Modelled from the spec: the Extractor splits an accepted container
document into the markers output and per-track and per-route outputs,
preserving each component's points and naming each file from its sanitized
declared name or a positional fallback. -/
def extractDocument (doc : GeoDocument) : ExtractResult :=
  { markersOut := doc.markers,
    trackFiles := extractFiles "track" 0 doc.tracks,
    routeFiles := extractFiles "route" 0 doc.routes }

/-- Total number of markers plus track and route points of the input
document. -/
def totalInputPoints (doc : GeoDocument) : Nat :=
  doc.markers.length
    + ((doc.tracks.map (fun t => t.points.length)).sum
      + (doc.routes.map (fun t => t.points.length)).sum)

/-- Total number of marker points plus points across all track and route
output files. -/
def totalOutputPoints (r : ExtractResult) : Nat :=
  r.markersOut.length
    + ((r.trackFiles.map (fun f => f.points.length)).sum
      + (r.routeFiles.map (fun f => f.points.length)).sum)

end GpxSuite

namespace GpxSuite

/-- C1: the response dispatch of `processFile` produces exactly one of three
outcomes: when the response carries a truthy `redirect` and a truthy `url`
it navigates to that URL; otherwise when it carries a truthy `job_id` it
navigates to the processing page of that job; otherwise it surfaces an
error toast. -/
theorem processFile_trichotomy (d : SelectFileResponse) :
    (d.redirect = true → truthyStr d.url = true →
      processFile d = ProcessOutcome.navigateResults (d.url.getD "")) ∧
    (¬ (d.redirect = true ∧ truthyStr d.url = true) → truthyStr d.jobId = true →
      processFile d = ProcessOutcome.navigateProcessing ("/processing/" ++ d.jobId.getD "")) ∧
    (¬ (d.redirect = true ∧ truthyStr d.url = true) → truthyStr d.jobId = false →
      ∃ m, processFile d = ProcessOutcome.showError m) ∧
    ((∃ u, processFile d = ProcessOutcome.navigateResults u) ∨
     (∃ l, processFile d = ProcessOutcome.navigateProcessing l) ∨
     (∃ m, processFile d = ProcessOutcome.showError m)) := by
  unfold processFile
  have band_false : ∀ (_ : ¬ (d.redirect = true ∧ truthyStr d.url = true)),
      (d.redirect && truthyStr d.url) = false := by
    intro hn
    cases hr : d.redirect with
    | false => simp
    | true =>
      cases hu : truthyStr d.url with
      | false => simp
      | true => exact absurd ⟨hr, hu⟩ hn
  refine ⟨?_, ?_, ?_, ?_⟩
  · intro hr hu
    simp [hr, hu]
  · intro hn hj
    simp [band_false hn, hj]
  · intro hn hj
    exact ⟨if truthyStr d.error then d.error.getD "" else "Failed to start processing",
      by simp [band_false hn, hj]⟩
  · by_cases hb : (d.redirect && truthyStr d.url) = true
    · exact Or.inl ⟨d.url.getD "", by simp [hb]⟩
    · by_cases hj : truthyStr d.jobId = true
      · exact Or.inr (Or.inl ⟨"/processing/" ++ d.jobId.getD "",
          by simp [Bool.eq_false_iff.mpr hb, hj]⟩)
      · exact Or.inr (Or.inr
          ⟨if truthyStr d.error then d.error.getD "" else "Failed to start processing",
            by simp [Bool.eq_false_iff.mpr hb, Bool.eq_false_iff.mpr hj]⟩)

/-- Witness for C1: a concrete `Ready` response with `redirect` and a URL
navigates straight to the existing results. -/
theorem processFile_trichotomy_witness :
    processFile ⟨true, some "/results/abc", none, none⟩ =
      ProcessOutcome.navigateResults "/results/abc" :=
  (processFile_trichotomy ⟨true, some "/results/abc", none, none⟩).1 rfl (by decide)

/-- C2: a selected file is accepted (input not cleared, success toast) iff its
lowercased name ends in ".gpx" and its size is at most 100*1024*1024 bytes;
any failing file is rejected with an error toast and a reset input; the
extension check runs before the size check (a wrong-extension oversized file
gets the extension error); and no upload is submitted without a file. -/
theorem handleFileSelected_spec (name : String) (size : Nat) :
    ((handleFileSelected name size).inputCleared = false ↔
      (hasGpxExtension name = true ∧ size ≤ 100 * 1024 * 1024)) ∧
    (¬ (hasGpxExtension name = true ∧ size ≤ 100 * 1024 * 1024) →
      (handleFileSelected name size).inputCleared = true ∧
      (handleFileSelected name size).toastKind = ToastKind.error) ∧
    (hasGpxExtension name = false →
      (handleFileSelected name size).toastMessage = "Please select a GPX file") ∧
    (hasGpxExtension name = true → size > 100 * 1024 * 1024 →
      (handleFileSelected name size).toastMessage =
        "File is too large. Maximum size is 100MB") ∧
    uploadSubmits false = false := by
  unfold handleFileSelected uploadSubmits
  by_cases he : hasGpxExtension name = true
  · by_cases hs : size > 100 * 1024 * 1024
    · refine ⟨?_, ?_, ?_, ?_, rfl⟩ <;> simp [he, hs]
    · refine ⟨?_, ?_, ?_, ?_, rfl⟩ <;> simp [he, hs] <;> omega
  · have he' : hasGpxExtension name = false := Bool.eq_false_iff.mpr he
    refine ⟨?_, ?_, ?_, ?_, rfl⟩ <;> simp [he']

/-- Witness for C2: "Trip.GPX" of 5 bytes passes both checks and stays in the
input, while a non-gpx name is rejected with the extension error. -/
theorem handleFileSelected_spec_witness :
    (handleFileSelected "Trip.GPX" 5).inputCleared = false ∧
    (handleFileSelected "notes.txt" 5).toastMessage = "Please select a GPX file" :=
  ⟨(handleFileSelected_spec "Trip.GPX" 5).1.mpr ⟨by decide, by omega⟩,
   (handleFileSelected_spec "notes.txt" 5).2.2.1 (by decide)⟩

end GpxSuite

namespace GpxSuite

/-- C3: for every delete response handled by `confirmDelete`, a non-success
response leaves the displayed file list completely unchanged and raises an
error toast; the entry is removed from the list if and only if the response
reports success. -/
theorem confirmDelete_response_spec (files : List String) (uid displayName : String)
    (resp : DeleteResponse) :
    (resp.success = false →
      (applyDeleteResponse files uid displayName resp).files = files ∧
      (applyDeleteResponse files uid displayName resp).toastKind = ToastKind.error) ∧
    (resp.success = true →
      (applyDeleteResponse files uid displayName resp).files = files.erase uid ∧
      (applyDeleteResponse files uid displayName resp).toastKind = ToastKind.success) ∧
    (files.Nodup → uid ∈ files →
      (uid ∉ (applyDeleteResponse files uid displayName resp).files ↔
        resp.success = true)) := by
  unfold applyDeleteResponse
  cases hs : resp.success with
  | false =>
    refine ⟨fun _ => ⟨rfl, rfl⟩, fun h => absurd h (by simp), ?_⟩
    intro _ hmem
    simp [hmem]
  | true =>
    refine ⟨fun h => absurd h (by simp), fun _ => ⟨rfl, rfl⟩, ?_⟩
    intro hnd hmem
    simp [hnd.mem_erase_iff]

/-- Witness for C3: deleting entry "a" from the list ["a", "b"] with a
success response removes it; a failure response leaves the list as it was. -/
theorem confirmDelete_response_spec_witness :
    "a" ∉ (applyDeleteResponse ["a", "b"] "a" "A" ⟨true, none⟩).files ∧
    (applyDeleteResponse ["a", "b"] "a" "A" ⟨false, some "Invalid delete token"⟩).files
      = ["a", "b"] :=
  ⟨((confirmDelete_response_spec ["a", "b"] "a" "A" ⟨true, none⟩).2.2
      (by decide) (by decide)).mpr rfl,
   ((confirmDelete_response_spec ["a", "b"] "a" "A"
      ⟨false, some "Invalid delete token"⟩).1 rfl).1⟩

/-- C9: `confirmDelete` never sends a delete request with an empty trimmed
token or without a selected entry: an empty trimmed token yields only a
warning, a missing or empty `currentDeleteId` yields only an error toast,
and a request is sent exactly when a non-empty trimmed token and a selected
entry are both present. -/
theorem confirmDelete_guard_spec (tokenInput : String) (currentId : Option String) :
    (jsTrim tokenInput = "" →
      confirmDeleteGuard tokenInput currentId = DeleteGuardAction.warnEmptyToken) ∧
    (jsTrim tokenInput ≠ "" → (currentId = none ∨ currentId = some "") →
      confirmDeleteGuard tokenInput currentId = DeleteGuardAction.errorNoFile) ∧
    (∀ uid token,
      confirmDeleteGuard tokenInput currentId = DeleteGuardAction.sendRequest uid token →
      jsTrim tokenInput ≠ "" ∧ currentId = some uid ∧ uid ≠ "" ∧
        token = jsTrim tokenInput) := by
  unfold confirmDeleteGuard
  by_cases ht : jsTrim tokenInput = ""
  · refine ⟨fun _ => by simp [ht], fun h => absurd ht h, ?_⟩
    intro uid token h
    simp [ht] at h
  · refine ⟨fun h => absurd h ht, ?_, ?_⟩
    · rintro _ (rfl | rfl) <;> simp [ht]
    · intro uid token h
      cases hc : currentId with
      | none => simp [ht, hc] at h
      | some u =>
        by_cases hu : u = ""
        · simp [ht, hc, hu] at h
        · simp [ht, hc, hu] at h
          obtain ⟨h1, h2⟩ := h
          subst h1
          exact ⟨ht, rfl, hu, h2.symm⟩

/-- Witness for C9: a whitespace-only token input yields the warning and no
request, even with an entry selected. -/
theorem confirmDelete_guard_spec_witness :
    confirmDeleteGuard "   " (some "S_20260102") = DeleteGuardAction.warnEmptyToken :=
  (confirmDelete_guard_spec "   " (some "S_20260102")).1 (by decide)

/-- C4 claim counterexample: at progress 20 the code shows the uploading
label, while the intervals asserted by the specification (parsing for
10–40) require the parsing label there. -/
theorem progressLabel_claim_counterexample :
    progressLabel 20 = "Uploading file..." ∧
    specClaimedLabel 20 = "Analyzing GPX structure..." ∧
    progressLabel 20 ≠ specClaimedLabel 20 := by
  have h1 : progressLabel 20 = "Uploading file..." := by
    unfold progressLabel
    norm_num
  have h2 : specClaimedLabel 20 = "Analyzing GPX structure..." := by
    unfold specClaimedLabel
    norm_num
  refine ⟨h1, h2, ?_⟩
  rw [h1, h2]
  decide

/-- C4 amended: the phase label shown by `simulateProgress` at progress `p`
follows four intervals with boundaries 30, 60 and 90: "Uploading file..."
below 30, "Analyzing GPX structure..." on 30–60, "Extracting components..."
on 60–90, and "Almost done..." from 90 on. -/
theorem progressLabel_intervals (p : ℚ) :
    (p < 30 → progressLabel p = "Uploading file...") ∧
    (30 ≤ p → p < 60 → progressLabel p = "Analyzing GPX structure...") ∧
    (60 ≤ p → p < 90 → progressLabel p = "Extracting components...") ∧
    (90 ≤ p → progressLabel p = "Almost done...") := by
  unfold progressLabel
  refine ⟨?_, ?_, ?_, ?_⟩
  · intro h
    rw [if_pos h]
  · intro h1 h2
    rw [if_neg (by linarith), if_pos h2]
  · intro h1 h2
    rw [if_neg (by linarith), if_neg (by linarith), if_pos h2]
  · intro h
    rw [if_neg (by linarith), if_neg (by linarith), if_neg (by linarith)]

/-- Witness for the amended C4: at progress 45 the analyzing label is shown. -/
theorem progressLabel_intervals_witness :
    progressLabel 45 = "Analyzing GPX structure..." :=
  (progressLabel_intervals 45).2.1 (by norm_num) (by norm_num)

/-- Each tick of `simulateProgress` never decreases the progress and keeps it
between 0 and 90 when the increment is nonnegative. -/
theorem stepProgress_mono (p r : ℚ) (h0 : 0 ≤ p) (h90 : p ≤ 90) (hr : 0 ≤ r) :
    p ≤ stepProgress p r ∧ 0 ≤ stepProgress p r ∧ stepProgress p r ≤ 90 := by
  unfold stepProgress
  by_cases h : p + r > 90
  · rw [if_pos h]
    exact ⟨h90, by norm_num, le_refl 90⟩
  · rw [if_neg h]
    push_neg at h
    exact ⟨by linarith, by linarith, h⟩

/-- The displayed tick sequence starting at a progress within bounds is a
nondecreasing chain staying within 0–90. -/
theorem runProgress_chain (rs : List ℚ) :
    ∀ p : ℚ, 0 ≤ p → p ≤ 90 → (∀ r ∈ rs, 0 ≤ r) →
      List.Chain' (· ≤ ·) (p :: runProgress p rs) ∧
      ∀ x ∈ runProgress p rs, 0 ≤ x ∧ x ≤ 90 := by
  induction rs with
  | nil =>
    intro p _ _ _
    exact ⟨List.chain'_singleton p, by simp [runProgress]⟩
  | cons r rs ih =>
    intro p h0 h90 hrs
    have hr : 0 ≤ r := hrs r (by simp)
    have hrs' : ∀ x ∈ rs, 0 ≤ x := fun x hx => hrs x (by simp [hx])
    obtain ⟨hle, hge0, hle90⟩ := stepProgress_mono p r h0 h90 hr
    obtain ⟨hchain, hbounds⟩ := ih (stepProgress p r) hge0 hle90 hrs'
    constructor
    · rw [runProgress]
      exact List.chain'_cons.mpr ⟨hle, hchain⟩
    · intro x hx
      rw [runProgress] at hx
      rcases List.mem_cons.mp hx with rfl | hx
      · exact ⟨hge0, hle90⟩
      · exact hbounds x hx

/-- C5: for every run of `simulateProgress` with nonnegative random
increments, the sequence of displayed percentages is monotonically
nondecreasing from one tick to the next and stays within 0–100. -/
theorem simulateProgress_monotone (rs : List ℚ) (h : ∀ r ∈ rs, 0 ≤ r) :
    List.Chain' (· ≤ ·) (runProgress 0 rs) ∧
    ∀ x ∈ runProgress 0 rs, 0 ≤ x ∧ x ≤ 100 := by
  obtain ⟨hchain, hbounds⟩ := runProgress_chain rs 0 (le_refl 0) (by norm_num) h
  refine ⟨hchain.tail, ?_⟩
  intro x hx
  obtain ⟨h1, h2⟩ := hbounds x hx
  exact ⟨h1, by linarith⟩

/-- Witness for C5: a concrete run with increments 10, 50, 40 and 20 yields a
nondecreasing displayed sequence within bounds. -/
theorem simulateProgress_monotone_witness :
    List.Chain' (· ≤ ·) (runProgress 0 [10, 50, 40, 20]) ∧
    ∀ x ∈ runProgress 0 [10, 50, 40, 20], 0 ≤ x ∧ x ≤ 100 :=
  simulateProgress_monotone [10, 50, 40, 20] (by norm_num)

end GpxSuite

namespace GpxSuite

/-- C8: whenever the method loop of `URLExpander.expandUrl` returns a URL,
that URL differs from the input and passes `isValidExpandedUrl`; and the
loop fails (throws) exactly when no method returned a truthy URL that
differs from the input and passes the validation. -/
theorem expandUrl_spec (url : String) (results : List (Option String)) :
    (∀ e, expandUrl url results = some e →
      e ≠ url ∧ isValidExpandedUrl e = true) ∧
    (expandUrl url results = none ↔
      ∀ r ∈ results, ∀ e, r = some e →
        ¬ (e ≠ "" ∧ e ≠ url ∧ isValidExpandedUrl e = true)) := by
  induction results with
  | nil =>
    refine ⟨?_, ?_⟩
    · intro e h
      simp [expandUrl] at h
    · simp [expandUrl]
  | cons r rs ih =>
    cases r with
    | none =>
      refine ⟨?_, ?_⟩
      · intro e h
        exact ih.1 e h
      · rw [show expandUrl url (none :: rs) = expandUrl url rs from rfl, ih.2]
        simp [List.forall_mem_cons]
    | some e0 =>
      by_cases hc : e0 ≠ "" ∧ e0 ≠ url ∧ isValidExpandedUrl e0 = true
      · have hrun : expandUrl url (some e0 :: rs) = some e0 := by
          simp [expandUrl, hc]
        refine ⟨?_, ?_⟩
        · intro e h
          rw [hrun] at h
          obtain rfl : e0 = e := Option.some.inj h
          exact ⟨hc.2.1, hc.2.2⟩
        · rw [hrun]
          constructor
          · intro h
            exact absurd h (by simp)
          · intro h
            exact absurd hc (h (some e0) (by simp) e0 rfl)
      · have hrun : expandUrl url (some e0 :: rs) = expandUrl url rs := by
          simp [expandUrl, hc]
        refine ⟨?_, ?_⟩
        · intro e h
          rw [hrun] at h
          exact ih.1 e h
        · rw [hrun, ih.2]
          constructor
          · intro h r hr e he
            rcases List.mem_cons.mp hr with rfl | hr'
            · obtain rfl : e0 = e := Option.some.inj he
              exact hc
            · exact h r hr' e he
          · intro h r hr e he
            exact h r (List.mem_cons_of_mem _ hr) e he

/-- Witness for C8: with the first method throwing and the second returning a
coordinate Google Maps URL, the loop returns that URL, which differs from
the short input and validates. -/
theorem expandUrl_spec_witness :
    expandUrl "https://goo.gl/maps/abc"
        [none, some "https://www.google.com/maps/@40.7,-74.0,15z"] =
      some "https://www.google.com/maps/@40.7,-74.0,15z" ∧
    "https://www.google.com/maps/@40.7,-74.0,15z" ≠ "https://goo.gl/maps/abc" ∧
    isValidExpandedUrl "https://www.google.com/maps/@40.7,-74.0,15z" = true := by
  have h : expandUrl "https://goo.gl/maps/abc"
      [none, some "https://www.google.com/maps/@40.7,-74.0,15z"] =
      some "https://www.google.com/maps/@40.7,-74.0,15z" := by decide
  obtain ⟨h1, h2⟩ := (expandUrl_spec "https://goo.gl/maps/abc"
      [none, some "https://www.google.com/maps/@40.7,-74.0,15z"]).1 _ h
  exact ⟨h, h1, h2⟩

/-- `updateSelectedCount` establishes the display invariant of the results
page regardless of the state it starts from. -/
theorem updateSelectedCount_inv (s : ResultsState) :
    countInvariant (updateSelectedCount s) := by
  unfold countInvariant updateSelectedCount
  exact ⟨rfl, by simp [List.length_eq_zero]⟩

/-- Every selection operation ends by refreshing the count display, so each
one establishes the display invariant. -/
theorem applySelectionOp_inv (op : SelectionOp) (s : ResultsState) :
    countInvariant (applySelectionOp op s) := by
  cases op with
  | selAll => exact updateSelectedCount_inv _
  | selNone => exact updateSelectedCount_inv _
  | selByType t => exact updateSelectedCount_inv _
  | selToggle b => cases b <;> exact updateSelectedCount_inv _
  | selChange n b => exact updateSelectedCount_inv _

/-- The display invariant is preserved by any sequence of selection
operations. -/
theorem applySelectionOps_inv (s : ResultsState) (ops : List SelectionOp)
    (hs : countInvariant s) : countInvariant (applySelectionOps s ops) := by
  induction ops generalizing s with
  | nil => exact hs
  | cons op rest ih => exact ih _ (applySelectionOp_inv op s)

/-- C10: after any nonempty sequence of selection operations, the displayed
selected count equals the size of `selectedFiles` and the Download Selected
button is disabled exactly when that set is empty; and `downloadSelected`
issues no request when zero files are selected. -/
theorem selection_display_invariant (s : ResultsState) (ops : List SelectionOp)
    (h : ops ≠ []) :
    countInvariant (applySelectionOps s ops) ∧
    ((applySelectionOps s ops).selected = [] →
      ∀ dir, downloadSelectedRequest (applySelectionOps s ops).selected dir = none) := by
  constructor
  · obtain ⟨op, rest, rfl⟩ := List.exists_cons_of_ne_nil h
    exact applySelectionOps_inv _ rest (applySelectionOp_inv op s)
  · intro hsel dir
    rw [hsel]
    rfl

/-- Witness for C10: selecting all on a one-item results page yields a state
whose displayed count and button flag agree with the selection set. -/
theorem selection_display_invariant_witness :
    countInvariant
      (applySelectionOps ⟨[⟨"a.gpx", "track"⟩], [], 0, true⟩ [SelectionOp.selAll]) :=
  (selection_display_invariant ⟨[⟨"a.gpx", "track"⟩], [], 0, true⟩
    [SelectionOp.selAll] (List.cons_ne_nil _ _)).1

end GpxSuite

namespace GpxSuite

/-- Any upload whose clean name finds an entry with an at-least-as-recent
build date is Skipped, pointing at the existing entry and leaving the store
as it was. -/
theorem upsert_skip_after (store2 : List ArchiveEntry) (cleanName : String)
    (buildDate : Nat) (e2 : ArchiveEntry)
    (hfind : store2.find? (fun x => x.cleanName == cleanName) = some e2)
    (hle : buildDate ≤ e2.buildDate) :
    upsert store2 cleanName buildDate = (store2, UpsertAction.Skipped, e2.uniqueId) := by
  unfold upsert
  rw [hfind]
  exact if_pos hle

/-- C6: uploading a file with a clean name and build date for the second
time in a row returns Skipped, reports the same `unique_id` as the first
upload, and leaves the archive store untouched (no entry is reset and no
reprocessing happens). -/
theorem upload_idempotent (store : List ArchiveEntry) (cleanName : String)
    (buildDate : Nat) :
    upsert (upsert store cleanName buildDate).1 cleanName buildDate =
      ((upsert store cleanName buildDate).1, UpsertAction.Skipped,
        (upsert store cleanName buildDate).2.2) := by
  cases hfind : store.find? (fun e => e.cleanName == cleanName) with
  | none =>
    have hstep1 : upsert store cleanName buildDate =
        (⟨mkUniqueId cleanName buildDate, cleanName, buildDate,
            EntryStatus.Queued⟩ :: store,
          UpsertAction.Created, mkUniqueId cleanName buildDate) := by
      unfold upsert
      rw [hfind]
    rw [hstep1]
    have h2 : ((⟨mkUniqueId cleanName buildDate, cleanName, buildDate,
        EntryStatus.Queued⟩ : ArchiveEntry) :: store).find?
          (fun x => x.cleanName == cleanName) =
        some ⟨mkUniqueId cleanName buildDate, cleanName, buildDate,
          EntryStatus.Queued⟩ :=
      List.find?_cons_of_pos _ (by simp)
    exact upsert_skip_after _ cleanName buildDate _ h2 (le_refl buildDate)
  | some e =>
    by_cases hle : buildDate ≤ e.buildDate
    · rw [upsert_skip_after store cleanName buildDate e hfind hle]
      exact upsert_skip_after store cleanName buildDate e hfind hle
    · have hpe : e.cleanName = cleanName := by
        simpa using
          (@List.find?_some _ (fun e2 : ArchiveEntry => e2.cleanName == cleanName) e
            store hfind)
      have hcond : (e.cleanName == cleanName) = true := by simp [hpe]
      have hstep1 : upsert store cleanName buildDate =
          (store.map (replaceEntry cleanName buildDate),
            UpsertAction.Replaced, mkUniqueId cleanName buildDate) := by
        unfold upsert
        rw [hfind]
        exact if_neg hle
      have hge : replaceEntry cleanName buildDate e =
          { e with uniqueId := mkUniqueId cleanName buildDate,
                   buildDate := buildDate, status := EntryStatus.Queued } := by
        unfold replaceEntry
        rw [if_pos hcond]
      have hcomp : ((fun e2 : ArchiveEntry => e2.cleanName == cleanName) ∘
          replaceEntry cleanName buildDate) =
          (fun e2 : ArchiveEntry => e2.cleanName == cleanName) := by
        funext e'
        by_cases h : e'.cleanName = cleanName
        · simp [replaceEntry, h]
        · simp [replaceEntry, h]
      have hfind2 : (store.map (replaceEntry cleanName buildDate)).find?
          (fun x => x.cleanName == cleanName) =
          some (replaceEntry cleanName buildDate e) := by
        rw [List.find?_map, hcomp, hfind]
        rfl
      have hle2 : buildDate ≤ (replaceEntry cleanName buildDate e).buildDate := by
        rw [hge]
      have huid : (replaceEntry cleanName buildDate e).uniqueId =
          mkUniqueId cleanName buildDate := by
        rw [hge]
      rw [hstep1]
      show upsert (store.map (replaceEntry cleanName buildDate)) cleanName buildDate =
        (store.map (replaceEntry cleanName buildDate), UpsertAction.Skipped,
          mkUniqueId cleanName buildDate)
      rw [upsert_skip_after _ cleanName buildDate _ hfind2 hle2, huid]

/-- C7: extraction loses and duplicates no point: the marker count of the
markers output plus the points across all track and route output files
equals the marker count plus all track and route points of the input
document. -/
theorem extract_point_count (doc : GeoDocument) :
    totalOutputPoints (extractDocument doc) = totalInputPoints doc := by
  have hfiles : ∀ (kind : String) (ts : List TrackSeq) (i : Nat),
      ((extractFiles kind i ts).map (fun f => f.points.length)).sum
        = (ts.map (fun t => t.points.length)).sum := by
    intro kind ts
    induction ts with
    | nil => intro i; rfl
    | cons t ts ih =>
      intro i
      simp [extractFiles, ih (i + 1)]
  unfold totalOutputPoints totalInputPoints extractDocument
  simp [hfiles]

end GpxSuite
